import Mathlib

/-!
Verification of a minimal Redux-style state container (`createStore`,
`dispatch`, `subscribe`, `getState`, `replaceReducer`) together with the
`compose` and `bindActionCreator(s)` utilities, shallowly embedded from the
JavaScript source.

Modelling conventions:
* JavaScript runtime values that the container inspects are embedded as
  `JSValue` (`isPlainObject` is true exactly on plain-object literals, the
  `type` field of a non-object or a missing key reads as `undefined`).
* The mutable closure variables of `createStore` (`currentReducer`,
  `currentState`, `currentListeners`, `nextListeners`, `isDispatching`)
  become the fields of the `Store` structure.  Reference identity of the
  two listener arrays (`nextListeners === currentListeners`) is tracked by
  the boolean field `aliased`; `slice()` (a copy) sets it to `false`, the
  assignment `currentListeners = nextListeners` inside `dispatch` sets it
  back to `true`.
* Each call of `subscribe` creates an unsubscribe closure capturing the
  listener reference and an `isSubscribed` flag; those closure states live
  in the `unsubs` field, indexed by creation order.
* Listener callbacks are identified by their reference, embedded as `Nat`.
  The behaviour of a listener during a notification pass is given by an
  environment `ListenerEnv`: the registry operations (subscribe /
  unsubscribe-closure calls) it performs, and optionally a user exception
  it throws (`Err.userErr code`).
* Exceptions become `Except Err`; stateful operations return the final
  values of the closure variables next to the outcome, which models the
  fact that a JavaScript exception leaves the captured variables exactly
  as they were at the throw site.
-/

namespace ReduxSpec

/-- Embedded JavaScript values, as far as the container inspects them. -/
inductive JSValue where
  | undefined
  | nullv
  | boolv (b : Bool)
  | numv (n : Int)
  | strv (s : String)
  | arrv (elems : List JSValue)
  | obj (fields : List (String × JSValue))

/-- lodash `isPlainObject`: true on plain-object records, false on
primitives, `null`, `undefined` and arrays. -/
def isPlainObject : JSValue → Bool
  | .obj _ => true
  | _ => false

/-- `typeof v.type === 'undefined'` test helper. -/
def isUndefined : JSValue → Bool
  | .undefined => true
  | _ => false

/-- Property read `v[key]`: the first binding of `key` on a plain object,
`undefined` when the key is absent or the value is not an object. -/
def getField (v : JSValue) (key : String) : JSValue :=
  match v with
  | .obj fields => (((fields.find? (fun kv => kv.1 == key)).map Prod.snd).getD .undefined)
  | _ => .undefined

/-- Errors thrown by the embedded code.  `userErr` stands for an arbitrary
exception raised by caller-supplied reducer or listener code. -/
inductive Err where
  | invalidAction
  | reentrancy
  | configuration
  | invalidOperation
  | userErr (code : Nat)
deriving DecidableEq, Repr

/-- The reserved bootstrap action type `ActionTypes.INIT`. -/
def ActionTypesINIT : String := "@@redux/INIT"

/-- The bootstrap action `{ type: ActionTypes.INIT }` dispatched by
`createStore` and `replaceReducer`. -/
def initAction : JSValue := .obj [("type", .strv ActionTypesINIT)]

/-- A reducer: caller-supplied code from `(state, action)` to the next
state, possibly throwing. -/
abbrev ReducerF := JSValue → JSValue → Except Err JSValue

/-- The captured state of one unsubscribe closure returned by `subscribe`:
the listener reference it removes and its private `isSubscribed` flag. -/
structure UnsubState where
  listener : Nat
  isSubscribed : Bool
deriving DecidableEq, Repr

/-- The closure variables of `createStore`. -/
structure Store where
  currentReducer : ReducerF
  currentState : JSValue
  currentListeners : List Nat
  nextListeners : List Nat
  /-- whether `nextListeners === currentListeners` (reference identity). -/
  aliased : Bool
  isDispatching : Bool
  /-- states of the unsubscribe closures created so far, by creation order. -/
  unsubs : List UnsubState

/-- `ensureCanMutateNextListeners`: if the two registries are the same
array, replace `nextListeners` with a copy (`currentListeners.slice()`). -/
def ensureCanMutateNextListeners (st : Store) : Store :=
  if st.aliased then
    { st with nextListeners := st.currentListeners, aliased := false }
  else st

/-- `getState`: returns the current state reference. -/
def getState (st : Store) : JSValue :=
  st.currentState

/-- `subscribe(listener)`: copy-on-write split, push the listener onto
`nextListeners`, create a fresh unsubscribe closure and return its index.
(The `typeof listener !== 'function'` check cannot fire in the embedding
because listener references are exactly the elements of `Nat`.) -/
def subscribe (st : Store) (listener : Nat) : Store × Nat :=
  let st1 := ensureCanMutateNextListeners st
  ({ st1 with
      nextListeners := st1.nextListeners ++ [listener],
      unsubs := st1.unsubs ++ [⟨listener, true⟩] },
   st1.unsubs.length)

/-- `Array.prototype.indexOf`: index of the first occurrence, `none`
standing for JavaScript's `-1`. -/
def firstIdxOf (x : Nat) : List Nat → Option Nat
  | [] => none
  | y :: rest => if y = x then some 0 else (firstIdxOf x rest).map (· + 1)

/-- `nextListeners.splice(nextListeners.indexOf(listener), 1)`: removes the
element at the first occurrence; on `indexOf = -1`, `splice(-1, 1)` removes
the last element of a non-empty array and nothing from an empty one. -/
def unsubscribeRemove (l : List Nat) (x : Nat) : List Nat :=
  match firstIdxOf x l with
  | some i => l.eraseIdx i
  | none => l.dropLast

/-- Calling the unsubscribe closure with index `u`: a no-op after the first
call (`isSubscribed` guard), otherwise clear the flag, copy-on-write split,
then remove one occurrence of the captured listener by first index. -/
def unsubscribeCall (st : Store) (u : Nat) : Store :=
  match st.unsubs[u]? with
  | none => st
  | some c =>
    if c.isSubscribed then
      let st1 := { st with unsubs := st.unsubs.set u ⟨c.listener, false⟩ }
      let st2 := ensureCanMutateNextListeners st1
      { st2 with nextListeners := unsubscribeRemove st2.nextListeners c.listener }
    else st

/-- A registry mutation a listener may perform during a notification pass:
a `subscribe` call or a call of an existing unsubscribe closure. -/
inductive RegOp where
  | sub (listener : Nat)
  | unsub (u : Nat)
deriving DecidableEq, Repr

/-- The behaviour of one listener invocation: the registry operations it
performs in order, then optionally a user exception it throws. -/
structure LBody where
  ops : List RegOp
  thrown : Option Nat

/-- Assignment of behaviours to listener references. -/
abbrev ListenerEnv := Nat → LBody

/-- Effect of one registry operation on the closure variables. -/
def runRegOp (st : Store) (op : RegOp) : Store :=
  match op with
  | .sub l => (subscribe st l).1
  | .unsub u => unsubscribeCall st u

/-- One listener invocation `listener()`: run its registry operations, then
report the user exception it throws, if any. -/
def runListener (env : ListenerEnv) (st : Store) (l : Nat) : Store × Option Nat :=
  ((env l).ops.foldl runRegOp st, (env l).thrown)

/-- Outcome of a notification pass: final closure variables, the listeners
invoked in order, and whether the pass completed or a listener threw. -/
structure PassResult where
  store : Store
  invoked : List Nat
  result : Except Err Unit

/-- The notification loop of `dispatch`: iterate the snapshot in order; a
listener that throws aborts the remainder of the pass. -/
def runPass (env : ListenerEnv) (st : Store) : List Nat → PassResult
  | [] => ⟨st, [], .ok ()⟩
  | l :: rest =>
    match runListener env st l with
    | (st1, some e) => ⟨st1, [l], .error (.userErr e)⟩
    | (st1, none) =>
      let r := runPass env st1 rest
      ⟨r.store, l :: r.invoked, r.result⟩

/-- The closure variables as the reducer invocation sees them: the
dispatch-in-progress flag has just been set. -/
def duringReducer (st : Store) : Store :=
  { st with isDispatching := true }

/-- The `try { isDispatching = true; currentState = currentReducer(...) }
finally { isDispatching = false }` block of `dispatch`. -/
def reducerPhase (st : Store) (action : JSValue) : Store × Except Err Unit :=
  let stIn := duringReducer st
  match stIn.currentReducer stIn.currentState action with
  | .error e => ({ stIn with isDispatching := false }, .error e)
  | .ok s1 => ({ stIn with currentState := s1, isDispatching := false }, .ok ())

/-- Outcome of a `dispatch` call, with the invoked listeners kept for the
statements about notification passes. -/
structure DispatchResult where
  store : Store
  invoked : List Nat
  result : Except Err JSValue

/-- `dispatch(action)`: validate the action (plain object, defined `type`),
check the reentrancy guard, run the reducer under the flag, snapshot
`nextListeners` into `currentListeners` and run the notification pass;
return the action on success. -/
def dispatchT (env : ListenerEnv) (st : Store) (action : JSValue) : DispatchResult :=
  if !(isPlainObject action) then ⟨st, [], .error .invalidAction⟩
  else if isUndefined (getField action "type") then ⟨st, [], .error .invalidAction⟩
  else if st.isDispatching then ⟨st, [], .error .reentrancy⟩
  else
    match reducerPhase st action with
    | (st1, .error e) => ⟨st1, [], .error e⟩
    | (st1, .ok _) =>
      let snapshot := st1.nextListeners
      let st2 := { st1 with currentListeners := st1.nextListeners, aliased := true }
      let p := runPass env st2 snapshot
      match p.result with
      | .ok _ => ⟨p.store, p.invoked, .ok action⟩
      | .error e => ⟨p.store, p.invoked, .error e⟩

/-- `dispatch` as the caller sees it: final closure variables and the
returned action or the escaping error. -/
def dispatch (env : ListenerEnv) (st : Store) (action : JSValue) : Store × Except Err JSValue :=
  ((dispatchT env st action).store, (dispatchT env st action).result)

/-- `createStore(reducer, preloadedState)` without an enhancer: initialise
the closure variables, then perform the bootstrap dispatch of
`{ type: ActionTypes.INIT }`.  (The `typeof reducer !== 'function'` check
cannot fire in the embedding because `ReducerF` contains only functions.) -/
def createStore (env : ListenerEnv) (reducer : ReducerF) (preloadedState : JSValue) :
    Store × Except Err JSValue :=
  let st0 : Store :=
    { currentReducer := reducer
      currentState := preloadedState
      currentListeners := []
      nextListeners := []
      aliased := true
      isDispatching := false
      unsubs := [] }
  dispatch env st0 initAction

/-- `replaceReducer(nextReducer)`: swap the reducer and dispatch the
bootstrap action. -/
def replaceReducer (env : ListenerEnv) (st : Store) (nextReducer : ReducerF) :
    Store × Except Err JSValue :=
  dispatch env { st with currentReducer := nextReducer } initAction

/-- A reducer that never throws. -/
def liftReducer (r : JSValue → JSValue → JSValue) : ReducerF :=
  fun s a => .ok (r s a)

/-- The validation `dispatch` applies to an action: plain object with a
defined `type` field. -/
def validAction (a : JSValue) : Bool :=
  isPlainObject a && !(isUndefined (getField a "type"))

/-- An external interaction step against the store handle: a registry
operation or a `dispatch` call. -/
inductive ExtStep where
  | reg (op : RegOp)
  | act (a : JSValue)

/-- Run a sequence of external interaction steps. -/
def runSteps (env : ListenerEnv) (st : Store) : List ExtStep → Store
  | [] => st
  | .reg op :: rest => runSteps env (runRegOp st op) rest
  | .act a :: rest => runSteps env (dispatch env st a).1 rest

/-- The actions dispatched along a sequence of interaction steps. -/
def dispatchedActions : List ExtStep → List JSValue
  | [] => []
  | .reg _ :: rest => dispatchedActions rest
  | .act a :: rest => a :: dispatchedActions rest

/-- `n`-fold subscription of the same listener reference. -/
def subscribeN (st : Store) (l : Nat) : Nat → Store
  | 0 => st
  | n + 1 => subscribeN (subscribe st l).1 l n

/-- The closure variables at the moment each listener of a pass is invoked
(cut short when a listener throws). -/
def passStores (env : ListenerEnv) (st : Store) : List Nat → List Store
  | [] => []
  | l :: rest =>
    st ::
      (match runListener env st l with
       | (st1, none) => passStores env st1 rest
       | (_, some _) => [])

/-- Reference-identity invariant of the two listener registries: whenever
they are the same array, they hold the same elements. -/
def aliasInv (st : Store) : Prop :=
  st.aliased = true → st.currentListeners = st.nextListeners

/-! ### Concrete scenario data used by witnesses and closed conjuncts -/

/-- Listener environment in which every listener does nothing. -/
def noopEnv : ListenerEnv := fun _ => ⟨[], none⟩

/-- A plain action `{ type: 'A' }`. -/
def actA : JSValue := .obj [("type", .strv "A")]

/-- A plain action `{ type: 'B' }`. -/
def actB : JSValue := .obj [("type", .strv "B")]

/-- A pure counting reducer probe. -/
def wRed : JSValue → JSValue → JSValue := fun s _ =>
  match s with
  | .numv n => .numv (n + 1)
  | _ => .numv 0

/-- A concrete interaction sequence: dispatch, subscribe, dispatch. -/
def wSteps : List ExtStep := [.act actA, .reg (.sub 0), .act actB]

/-- A fresh container over the identity reducer with state `numv 0`. -/
def baseStore : Store := (createStore noopEnv (liftReducer (fun s _ => s)) (.numv 0)).1

/-- `baseStore` with listener 0 then listener 1 subscribed; their
unsubscribe closures get indices 0 and 1. -/
def midPassStore : Store := (subscribe (subscribe baseStore 0).1 1).1

/-- Mid-pass mutation scenario: listener 0 calls the unsubscribe closure of
listener 1 while a notification pass is running. -/
def midPassEnv : ListenerEnv := fun l =>
  if l = 0 then ⟨[.unsub 1], none⟩ else ⟨[], none⟩

/-- A container whose reducer always throws user error 3. -/
def wFailStore : Store :=
  ⟨fun _ _ => .error (.userErr 3), .numv 1, [], [], true, false, []⟩

/-- Listener 1 throws user error 9; every other listener does nothing. -/
def wThrowEnv : ListenerEnv := fun l =>
  if l = 1 then ⟨[], some 9⟩ else ⟨[], none⟩

/-- A dummy reducer for the in-flight view (never invoked there: the
reentrancy check fires before the reducer call). -/
def dummyReducer : ReducerF := fun s _ => .ok s

/-- The closure variables of a container as a reducer invocation sees
them mid-dispatch: the dispatch-in-progress flag is set. -/
def inFlightView : Store := ⟨dummyReducer, .numv 0, [], [], true, true, []⟩

/-- A reducer that performs a nested `dispatch` against its container's
in-flight closure variables and rethrows the resulting error. -/
def rethrowingReducer : ReducerF := fun s a =>
  match (dispatch noopEnv inFlightView a).2 with
  | .error e => .error e
  | .ok _ => .ok s

/-- An idle container around `rethrowingReducer` with state `numv 0`. -/
def rethrowStore : Store := ⟨rethrowingReducer, .numv 0, [], [], true, false, []⟩

/-- A reducer that performs the nested dispatch, catches the error, and
returns a recovery state. -/
def catchingReducer : ReducerF := fun s a =>
  match (dispatch noopEnv inFlightView a).2 with
  | .error _ => .ok (.strv "recovered")
  | .ok _ => .ok s

/-- An idle container around `catchingReducer` with state `numv 0`. -/
def catchStore : Store := ⟨catchingReducer, .numv 0, [], [], true, false, []⟩

/-! ### `compose` -/

/-- A variadic JavaScript function: the argument list to its value. -/
abbrev VFn := List JSValue → JSValue

/-- `compose(...funcs)`: zero functions give `arg => arg` (unary identity,
extra arguments dropped); one function is returned unchanged; otherwise
`funcs.reduce((a, b) => (...args) => a(b(...args)))`. -/
def compose (funcs : List VFn) : VFn :=
  match funcs with
  | [] => fun args => args.headD .undefined
  | [f] => f
  | f :: rest => rest.foldl (fun a b => fun args => a [b args]) f

/-! ### `bindActionCreators` -/

/-- A value stored under a key of the action-creator mapping: a callable
action creator or arbitrary non-callable data. -/
inductive CreatorVal where
  | fnv (f : List JSValue → JSValue)
  | datav (v : JSValue)

/-- `typeof value === 'function'`. -/
def CreatorVal.isCallable : CreatorVal → Bool
  | .fnv _ => true
  | .datav _ => false

/-- The argument of `bindActionCreators`, classified the way the source's
`typeof` checks do: a callable, an object-like mapping, `null`, or a
primitive whose `typeof` is neither `'function'` nor `'object'`. -/
inductive BindArg where
  | funcArg (f : List JSValue → JSValue)
  | objArg (m : List (String × CreatorVal))
  | nullArg
  | primArg (v : JSValue)

/-- `bindActionCreator(actionCreator, dispatch)`:
`(...args) => dispatch(actionCreator(...args))`. -/
def bindActionCreator {D : Type} (actionCreator : List JSValue → JSValue)
    (dispatchFn : JSValue → D) : List JSValue → D :=
  fun args => dispatchFn (actionCreator args)

/-- The result of `bindActionCreators`: a single bound callable, or a
mapping of keys to bound callables. -/
inductive BindResult (D : Type) where
  | funcRes (w : List JSValue → D)
  | objRes (m : List (String × (List JSValue → D)))

/-- `bindActionCreators(actionCreators, dispatch)`: a callable is bound
directly; a non-object or `null` argument throws; an object-like mapping
is rebuilt by the `Object.keys` loop, binding callable values and
skipping the rest. -/
def bindActionCreators {D : Type} (actionCreators : BindArg)
    (dispatchFn : JSValue → D) : Except Err (BindResult D) :=
  match actionCreators with
  | .funcArg f => .ok (.funcRes (bindActionCreator f dispatchFn))
  | .nullArg => .error .configuration
  | .primArg _ => .error .configuration
  | .objArg m => .ok (.objRes (m.foldl (fun acc kv =>
      match kv.2 with
      | .fnv f => acc ++ [(kv.1, bindActionCreator f dispatchFn)]
      | .datav _ => acc) []))

/-! ### Field-preservation lemmas for the registry operations -/

theorem ensure_currentState (st : Store) :
    (ensureCanMutateNextListeners st).currentState = st.currentState := by
  unfold ensureCanMutateNextListeners; split <;> rfl

theorem ensure_isDispatching (st : Store) :
    (ensureCanMutateNextListeners st).isDispatching = st.isDispatching := by
  unfold ensureCanMutateNextListeners; split <;> rfl

theorem ensure_currentListeners (st : Store) :
    (ensureCanMutateNextListeners st).currentListeners = st.currentListeners := by
  unfold ensureCanMutateNextListeners; split <;> rfl

theorem ensure_currentReducer (st : Store) :
    (ensureCanMutateNextListeners st).currentReducer = st.currentReducer := by
  unfold ensureCanMutateNextListeners; split <;> rfl

theorem ensure_unsubs (st : Store) :
    (ensureCanMutateNextListeners st).unsubs = st.unsubs := by
  unfold ensureCanMutateNextListeners; split <;> rfl

theorem ensure_nextListeners_of_inv {st : Store} (h : aliasInv st) :
    (ensureCanMutateNextListeners st).nextListeners = st.nextListeners := by
  unfold ensureCanMutateNextListeners
  split
  · next ha => exact h ha
  · rfl

theorem runRegOp_currentState (st : Store) (op : RegOp) :
    (runRegOp st op).currentState = st.currentState := by
  cases op with
  | sub l => simp [runRegOp, subscribe, ensure_currentState]
  | unsub u =>
    simp only [runRegOp, unsubscribeCall]
    cases st.unsubs[u]? with
    | none => rfl
    | some c =>
      by_cases hc : c.isSubscribed <;> simp [hc, ensure_currentState]

theorem runRegOp_isDispatching (st : Store) (op : RegOp) :
    (runRegOp st op).isDispatching = st.isDispatching := by
  cases op with
  | sub l => simp [runRegOp, subscribe, ensure_isDispatching]
  | unsub u =>
    simp only [runRegOp, unsubscribeCall]
    cases st.unsubs[u]? with
    | none => rfl
    | some c =>
      by_cases hc : c.isSubscribed <;> simp [hc, ensure_isDispatching]

theorem runRegOp_currentListeners (st : Store) (op : RegOp) :
    (runRegOp st op).currentListeners = st.currentListeners := by
  cases op with
  | sub l => simp [runRegOp, subscribe, ensure_currentListeners]
  | unsub u =>
    simp only [runRegOp, unsubscribeCall]
    cases st.unsubs[u]? with
    | none => rfl
    | some c =>
      by_cases hc : c.isSubscribed <;> simp [hc, ensure_currentListeners]

theorem runRegOp_currentReducer (st : Store) (op : RegOp) :
    (runRegOp st op).currentReducer = st.currentReducer := by
  cases op with
  | sub l => simp [runRegOp, subscribe, ensure_currentReducer]
  | unsub u =>
    simp only [runRegOp, unsubscribeCall]
    cases st.unsubs[u]? with
    | none => rfl
    | some c =>
      by_cases hc : c.isSubscribed <;> simp [hc, ensure_currentReducer]

theorem foldl_runRegOp_currentState (ops : List RegOp) :
    ∀ st : Store, (ops.foldl runRegOp st).currentState = st.currentState := by
  induction ops with
  | nil => intro st; rfl
  | cons op rest ih =>
    intro st
    rw [List.foldl_cons, ih, runRegOp_currentState]

theorem foldl_runRegOp_isDispatching (ops : List RegOp) :
    ∀ st : Store, (ops.foldl runRegOp st).isDispatching = st.isDispatching := by
  induction ops with
  | nil => intro st; rfl
  | cons op rest ih =>
    intro st
    rw [List.foldl_cons, ih, runRegOp_isDispatching]

theorem foldl_runRegOp_currentReducer (ops : List RegOp) :
    ∀ st : Store, (ops.foldl runRegOp st).currentReducer = st.currentReducer := by
  induction ops with
  | nil => intro st; rfl
  | cons op rest ih =>
    intro st
    rw [List.foldl_cons, ih, runRegOp_currentReducer]

/-! ### Lemmas about the notification pass -/

theorem runPass_currentState (env : ListenerEnv) :
    ∀ (snap : List Nat) (st : Store),
      (runPass env st snap).store.currentState = st.currentState := by
  intro snap
  induction snap with
  | nil => intro st; rfl
  | cons l rest ih =>
    intro st
    simp only [runPass, runListener]
    cases h : (env l).thrown with
    | some e => simpa [h] using foldl_runRegOp_currentState (env l).ops st
    | none =>
      simp only [h]
      rw [ih, foldl_runRegOp_currentState]

theorem runPass_isDispatching (env : ListenerEnv) :
    ∀ (snap : List Nat) (st : Store),
      (runPass env st snap).store.isDispatching = st.isDispatching := by
  intro snap
  induction snap with
  | nil => intro st; rfl
  | cons l rest ih =>
    intro st
    simp only [runPass, runListener]
    cases h : (env l).thrown with
    | some e => simpa [h] using foldl_runRegOp_isDispatching (env l).ops st
    | none =>
      simp only [h]
      rw [ih, foldl_runRegOp_isDispatching]

theorem runPass_currentReducer (env : ListenerEnv) :
    ∀ (snap : List Nat) (st : Store),
      (runPass env st snap).store.currentReducer = st.currentReducer := by
  intro snap
  induction snap with
  | nil => intro st; rfl
  | cons l rest ih =>
    intro st
    simp only [runPass, runListener]
    cases h : (env l).thrown with
    | some e => simpa [h] using foldl_runRegOp_currentReducer (env l).ops st
    | none =>
      simp only [h]
      rw [ih, foldl_runRegOp_currentReducer]

theorem runPass_invoked_of_noThrow (env : ListenerEnv) :
    ∀ (snap : List Nat) (st : Store),
      (∀ l ∈ snap, (env l).thrown = none) →
      (runPass env st snap).invoked = snap ∧ (runPass env st snap).result = .ok () := by
  intro snap
  induction snap with
  | nil => intro st _; exact ⟨rfl, rfl⟩
  | cons l rest ih =>
    intro st hnt
    have hl : (env l).thrown = none := hnt l (List.mem_cons_self l rest)
    have hrest : ∀ l2 ∈ rest, (env l2).thrown = none :=
      fun l2 h2 => hnt l2 (List.mem_cons_of_mem l h2)
    simp only [runPass, runListener, hl]
    obtain ⟨h1, h2⟩ := ih ((env l).ops.foldl runRegOp st) hrest
    exact ⟨by rw [h1], h2⟩

theorem runPass_throw_at (env : ListenerEnv) (ecode : Nat) (thr : Nat) (post : List Nat) :
    ∀ (before : List Nat) (st : Store),
      (∀ l ∈ before, (env l).thrown = none) → (env thr).thrown = some ecode →
      (runPass env st (before ++ thr :: post)).invoked = before ++ [thr]
      ∧ (runPass env st (before ++ thr :: post)).result = .error (.userErr ecode) := by
  intro before
  induction before with
  | nil =>
    intro st _ hthr
    simp [runPass, runListener, hthr]
  | cons l rest ih =>
    intro st hnt hthr
    have hl : (env l).thrown = none := hnt l (List.mem_cons_self l rest)
    have hrest : ∀ l2 ∈ rest, (env l2).thrown = none :=
      fun l2 h2 => hnt l2 (List.mem_cons_of_mem l h2)
    simp only [List.cons_append, runPass, runListener, hl, List.append_eq]
    obtain ⟨h1, h2⟩ := ih ((env l).ops.foldl runRegOp st) hrest hthr
    exact ⟨by rw [h1], h2⟩

theorem runPass_result_shape (env : ListenerEnv) :
    ∀ (snap : List Nat) (st : Store),
      (runPass env st snap).result = .ok ()
      ∨ ∃ c : Nat, (runPass env st snap).result = .error (.userErr c) := by
  intro snap
  induction snap with
  | nil => intro st; exact Or.inl rfl
  | cons l rest ih =>
    intro st
    simp only [runPass, runListener]
    cases h : (env l).thrown with
    | some e => exact Or.inr ⟨e, by simp [h]⟩
    | none => simpa [h] using ih ((env l).ops.foldl runRegOp st)

/-! ### Removal by `indexOf` + `splice` equals removal of the first
occurrence -/

theorem firstIdxOf_isSome {x : Nat} :
    ∀ {l : List Nat}, x ∈ l → (firstIdxOf x l).isSome = true := by
  intro l
  induction l with
  | nil => intro h; cases h
  | cons y rest ih =>
    intro h
    by_cases hyx : y = x
    · simp [firstIdxOf, hyx]
    · have hx : x ∈ rest := by
        cases h with
        | head => exact absurd rfl hyx
        | tail _ h2 => exact h2
      simp only [firstIdxOf, if_neg hyx]
      obtain ⟨i, hi⟩ := Option.isSome_iff_exists.mp (ih hx)
      simp [hi]

theorem unsubscribeRemove_erase (x : Nat) :
    ∀ (l : List Nat), x ∈ l → unsubscribeRemove l x = l.erase x := by
  intro l
  induction l with
  | nil => intro h; cases h
  | cons y rest ih =>
    intro h
    by_cases hyx : y = x
    · subst hyx
      simp [unsubscribeRemove, firstIdxOf, List.eraseIdx, List.erase_cons_head]
    · have hx : x ∈ rest := by
        cases h with
        | head => exact absurd rfl hyx
        | tail _ h2 => exact h2
      obtain ⟨i, hi⟩ := Option.isSome_iff_exists.mp (firstIdxOf_isSome hx)
      have hrec := ih hx
      rw [unsubscribeRemove, hi] at hrec
      have hrec2 : rest.eraseIdx i = rest.erase x := hrec
      simp only [unsubscribeRemove, firstIdxOf, if_neg hyx, hi, Option.map]
      rw [List.eraseIdx_cons_succ, hrec2, List.erase_cons_tail]
      simp [hyx]

/-! ### Unfolding `dispatch` under its preconditions -/

theorem validAction_iff {a : JSValue} :
    validAction a = true
      ↔ (isPlainObject a = true ∧ isUndefined (getField a "type") = false) := by
  simp [validAction, Bool.and_eq_true, Bool.not_eq_true']

theorem dispatchT_ok (env : ListenerEnv) (red : ReducerF) (cs : JSValue)
    (cl nl : List Nat) (al : Bool) (us : List UnsubState) {a s1 : JSValue}
    (h1 : isPlainObject a = true) (h2 : isUndefined (getField a "type") = false)
    (hr : red cs a = .ok s1) :
    dispatchT env ⟨red, cs, cl, nl, al, false, us⟩ a =
      ⟨(runPass env ⟨red, s1, nl, nl, true, false, us⟩ nl).store,
       (runPass env ⟨red, s1, nl, nl, true, false, us⟩ nl).invoked,
       match (runPass env ⟨red, s1, nl, nl, true, false, us⟩ nl).result with
       | .ok _ => .ok a
       | .error e => .error e⟩ := by
  simp only [dispatchT, h1, h2, reducerPhase, duringReducer, hr, Bool.not_true,
    Bool.false_eq_true, if_false, if_neg]
  split <;> rename_i heq <;> simp [heq]

theorem dispatchT_reducer_error (env : ListenerEnv) (red : ReducerF) (cs : JSValue)
    (cl nl : List Nat) (al : Bool) (us : List UnsubState) {a : JSValue} {e : Err}
    (h1 : isPlainObject a = true) (h2 : isUndefined (getField a "type") = false)
    (hr : red cs a = .error e) :
    dispatchT env ⟨red, cs, cl, nl, al, false, us⟩ a =
      ⟨⟨red, cs, cl, nl, al, false, us⟩, [], .error e⟩ := by
  simp only [dispatchT, h1, h2, reducerPhase, duringReducer, hr, Bool.not_true,
    Bool.false_eq_true, if_false, if_neg]

/-! ### Subscription lemmas -/

theorem subscribe_aliased (st : Store) (l : Nat) :
    (subscribe st l).1.aliased = false := by
  unfold subscribe ensureCanMutateNextListeners
  split
  · rfl
  · next h =>
    simp only [Bool.not_eq_true] at h
    simp [h]

theorem subscribe_aliasInv (st : Store) (l : Nat) : aliasInv (subscribe st l).1 := by
  intro h
  rw [subscribe_aliased] at h
  cases h

theorem subscribe_nextListeners {st : Store} (hinv : aliasInv st) (l : Nat) :
    (subscribe st l).1.nextListeners = st.nextListeners ++ [l] := by
  unfold subscribe
  simp [ensure_nextListeners_of_inv hinv]

theorem subscribe_currentState (st : Store) (l : Nat) :
    (subscribe st l).1.currentState = st.currentState := by
  unfold subscribe
  simp [ensure_currentState]

theorem subscribe_isDispatching (st : Store) (l : Nat) :
    (subscribe st l).1.isDispatching = st.isDispatching := by
  unfold subscribe
  simp [ensure_isDispatching]

theorem subscribe_currentReducer (st : Store) (l : Nat) :
    (subscribe st l).1.currentReducer = st.currentReducer := by
  unfold subscribe
  simp [ensure_currentReducer]

theorem subscribeN_fields {st : Store} (hinv : aliasInv st) (l : Nat) :
    ∀ n : Nat,
      (subscribeN st l n).nextListeners = st.nextListeners ++ List.replicate n l
      ∧ (subscribeN st l n).currentState = st.currentState
      ∧ (subscribeN st l n).isDispatching = st.isDispatching
      ∧ (subscribeN st l n).currentReducer = st.currentReducer := by
  intro n
  induction n generalizing st with
  | zero => exact ⟨by simp [subscribeN], rfl, rfl, rfl⟩
  | succ k ih =>
    obtain ⟨hn, hs, hd, hr⟩ := ih (subscribe_aliasInv st l)
    refine ⟨?_, ?_, ?_, ?_⟩
    · rw [subscribeN, hn, subscribe_nextListeners hinv]
      simp [List.replicate_succ]
    · rw [subscribeN, hs, subscribe_currentState]
    · rw [subscribeN, hd, subscribe_isDispatching]
    · rw [subscribeN, hr, subscribe_currentReducer]

/-! ### Committed state of a successful dispatch -/

theorem dispatch_fields (env : ListenerEnv) {st : Store} {a s1 : JSValue}
    (h1 : isPlainObject a = true) (h2 : isUndefined (getField a "type") = false)
    (hflag : st.isDispatching = false)
    (hr : st.currentReducer st.currentState a = .ok s1) :
    (dispatch env st a).1.currentState = s1
    ∧ (dispatch env st a).1.currentReducer = st.currentReducer
    ∧ (dispatch env st a).1.isDispatching = false := by
  obtain ⟨red, cs, cl, nl, al, fl, us⟩ := st
  simp only at hflag hr
  subst hflag
  rw [dispatch, dispatchT_ok env red cs cl nl al us h1 h2 hr]
  refine ⟨?_, ?_, ?_⟩
  · exact runPass_currentState env nl _
  · exact runPass_currentReducer env nl _
  · exact runPass_isDispatching env nl _

theorem dispatch_invalid_notPlain (env : ListenerEnv) (st : Store) {a : JSValue}
    (h : isPlainObject a = false) :
    dispatch env st a = (st, .error .invalidAction) := by
  simp [dispatch, dispatchT, h]

theorem dispatch_invalid_noType (env : ListenerEnv) (st : Store) {a : JSValue}
    (h : isUndefined (getField a "type") = true) :
    dispatch env st a = (st, .error .invalidAction) := by
  by_cases hp : isPlainObject a <;> simp [dispatch, dispatchT, h, hp]

/-- Generic step invariant for C1: along any interaction sequence of
registry operations and valid dispatches, the state is the left fold of the
pure reducer over the dispatched actions, and the reducer reference and the
cleared dispatch flag are maintained. -/
theorem runSteps_fold (env : ListenerEnv) (r : JSValue → JSValue → JSValue) :
    ∀ (steps : List ExtStep) (st : Store),
      st.currentReducer = liftReducer r → st.isDispatching = false →
      (∀ a ∈ dispatchedActions steps, validAction a = true) →
      (runSteps env st steps).currentState
        = (dispatchedActions steps).foldl r st.currentState := by
  intro steps
  induction steps with
  | nil => intro st _ _ _; rfl
  | cons s rest ih =>
    intro st hred hflag hval
    cases s with
    | reg op =>
      have hval2 : ∀ a ∈ dispatchedActions rest, validAction a = true := by
        intro a ha; exact hval a (by simpa [dispatchedActions] using ha)
      have := ih (runRegOp st op)
        (by rw [runRegOp_currentReducer, hred])
        (by rw [runRegOp_isDispatching, hflag])
        hval2
      rw [runSteps, dispatchedActions, this, runRegOp_currentState]
    | act a =>
      have hvala : validAction a = true := hval a (by simp [dispatchedActions])
      have hval2 : ∀ a2 ∈ dispatchedActions rest, validAction a2 = true := by
        intro a2 ha; exact hval a2 (by simp [dispatchedActions, ha])
      obtain ⟨h1, h2⟩ := validAction_iff.mp hvala
      have hr : st.currentReducer st.currentState a = .ok (r st.currentState a) := by
        rw [hred]; rfl
      obtain ⟨hst, hrd, hfl⟩ := dispatch_fields env h1 h2 hflag hr
      have := ih (dispatch env st a).1 (by rw [hrd, hred]) hfl hval2
      rw [runSteps, dispatchedActions, this, hst, List.foldl_cons]

/-- C1.  With no enhancer, for every pure reducer `r`, preloaded state
`s0`, and sequence of interaction steps whose dispatched actions
`a1, …, an` are all valid, the state after running the steps is the left
fold of `r` over `a1, …, an` starting from `r s0 bootstrapAction`; in
particular immediately after construction `getState()` equals
`r s0 bootstrapAction`.  Interleaved subscribe/unsubscribe activity (both
external and from listeners) and listener exceptions cannot influence the
state: no hidden state exists beyond the fold. -/
theorem c1_state_is_fold (r : JSValue → JSValue → JSValue) (s0 : JSValue)
    (env : ListenerEnv) (steps : List ExtStep)
    (hval : ∀ a ∈ dispatchedActions steps, validAction a = true) :
    getState (runSteps env (createStore env (liftReducer r) s0).1 steps)
      = (dispatchedActions steps).foldl r (r s0 initAction)
    ∧ getState (createStore env (liftReducer r) s0).1 = r s0 initAction := by
  have hcs : (createStore env (liftReducer r) s0).1
      = ⟨liftReducer r, r s0 initAction, [], [], true, false, []⟩ := rfl
  constructor
  · rw [getState, hcs, runSteps_fold env r steps _ rfl rfl hval]
  · rw [getState, hcs]

/-- Closed witness for C1: a two-action dispatch sequence with an
interleaved subscription against a counting reducer. -/
theorem c1_state_is_fold_witness :
    getState (runSteps noopEnv (createStore noopEnv (liftReducer wRed) (.numv 5)).1 wSteps)
      = (dispatchedActions wSteps).foldl wRed (wRed (.numv 5) initAction)
    ∧ getState (createStore noopEnv (liftReducer wRed) (.numv 5)).1
      = wRed (.numv 5) initAction :=
  c1_state_is_fold wRed (.numv 5) noopEnv wSteps (by
    intro a ha
    simp only [wSteps, dispatchedActions, List.mem_cons, List.not_mem_nil, or_false] at ha
    rcases ha with h | h <;> subst h <;> rfl)

/-- C2.  (a) A notification pass invokes exactly the snapshot taken when
the reducer returned, whatever subscribe/unsubscribe mutations the
listeners perform mid-pass; (b) a dispatch notifies exactly the
`nextListeners` registry it finds, so the next pass reflects every
mutation completed before it begins; (c) concretely, a listener
unsubscribed mid-pass is still invoked in the in-flight pass (it is in the
snapshot) but is absent from the registry and not invoked in the next
pass. -/
theorem c2_snapshot_semantics :
    (∀ (env : ListenerEnv) (st : Store) (snap : List Nat),
        (∀ l ∈ snap, (env l).thrown = none) →
        (runPass env st snap).invoked = snap)
    ∧ (∀ (env : ListenerEnv) (st : Store) (a s1 : JSValue),
        isPlainObject a = true → isUndefined (getField a "type") = false →
        st.isDispatching = false →
        st.currentReducer st.currentState a = .ok s1 →
        (∀ l, (env l).thrown = none) →
        (dispatchT env st a).invoked = st.nextListeners)
    ∧ (dispatchT midPassEnv midPassStore actA).invoked = [0, 1]
    ∧ (dispatchT midPassEnv (dispatchT midPassEnv midPassStore actA).store actA).invoked = [0]
    ∧ 1 ∈ midPassStore.nextListeners
    ∧ 1 ∉ (dispatchT midPassEnv midPassStore actA).store.nextListeners := by
  refine ⟨?_, ?_, by decide, by decide, by decide, by decide⟩
  · intro env st snap h
    exact (runPass_invoked_of_noThrow env snap st h).1
  · intro env st a s1 h1 h2 hflag hr hnt
    obtain ⟨red, cs, cl, nl, al, fl, us⟩ := st
    simp only at hflag hr ⊢
    subst hflag
    rw [dispatchT_ok env red cs cl nl al us h1 h2 hr]
    exact (runPass_invoked_of_noThrow env nl _ (fun l _ => hnt l)).1

/-- Closed witness for C2: its universally quantified conjuncts applied to
the concrete mid-pass scenario. -/
theorem c2_snapshot_semantics_witness :
    (runPass midPassEnv midPassStore [0, 1]).invoked = [0, 1]
    ∧ (dispatchT noopEnv baseStore actA).invoked = baseStore.nextListeners :=
  ⟨c2_snapshot_semantics.1 midPassEnv midPassStore [0, 1]
      (by intro l hl; fin_cases hl <;> rfl),
   c2_snapshot_semantics.2.1 noopEnv baseStore actA (.numv 0)
      rfl rfl rfl rfl (fun _ => rfl)⟩

/-- C4.  `dispatch` rejects non-plain-object actions and actions whose
`type` field is undefined with `InvalidActionError`, before invoking the
reducer and leaving the state, the listener registries and the flag
entirely unchanged; in particular raw strings, arrays and `{}` are always
rejected. -/
theorem c4_invalid_actions (env : ListenerEnv) (st : Store) (a : JSValue) :
    (isPlainObject a = false → dispatch env st a = (st, .error .invalidAction))
    ∧ (isUndefined (getField a "type") = true → dispatch env st a = (st, .error .invalidAction))
    ∧ dispatch env st (.strv "raw") = (st, .error .invalidAction)
    ∧ dispatch env st (.arrv [actA]) = (st, .error .invalidAction)
    ∧ dispatch env st (.obj []) = (st, .error .invalidAction) :=
  ⟨fun h => dispatch_invalid_notPlain env st h,
   fun h => dispatch_invalid_noType env st h,
   dispatch_invalid_notPlain env st rfl,
   dispatch_invalid_notPlain env st rfl,
   dispatch_invalid_noType env st rfl⟩

/-- Closed witness for C4: a raw string and `{}` rejected on a concrete
container. -/
theorem c4_invalid_actions_witness :
    dispatch noopEnv baseStore (.strv "oops") = (baseStore, .error .invalidAction)
    ∧ dispatch noopEnv baseStore (.obj []) = (baseStore, .error .invalidAction) :=
  ⟨(c4_invalid_actions noopEnv baseStore (.strv "oops")).1 rfl,
   (c4_invalid_actions noopEnv baseStore (.strv "oops")).2.2.2.2⟩

/-- A successful dispatch whose listeners all return invokes exactly the
`nextListeners` registry. -/
theorem dispatchT_invoked_noThrow (env : ListenerEnv) {st : Store} {a s1 : JSValue}
    (h1 : isPlainObject a = true) (h2 : isUndefined (getField a "type") = false)
    (hflag : st.isDispatching = false)
    (hr : st.currentReducer st.currentState a = .ok s1)
    (hnt : ∀ l, (env l).thrown = none) :
    (dispatchT env st a).invoked = st.nextListeners := by
  obtain ⟨red, cs, cl, nl, al, fl, us⟩ := st
  simp only at hflag hr ⊢
  subst hflag
  rw [dispatchT_ok env red cs cl nl al us h1 h2 hr]
  exact (runPass_invoked_of_noThrow env nl _ (fun l _ => hnt l)).1

/-- C3.  Subscribing the same listener reference `l` a further `n` times
and dispatching invokes `l` exactly `n` more times in that pass; the
unsubscribe closure of an active subscription removes, on its first call,
exactly the first occurrence of its listener from the `next` registry
after a copy-on-write split (leaving `currentListeners` untouched); once
its `isSubscribed` flag is cleared, every later call is a no-op. -/
theorem c3_subscription_multiplicity :
    (∀ (env : ListenerEnv) (st : Store) (l n : Nat) (a s1 : JSValue),
        aliasInv st → st.isDispatching = false →
        isPlainObject a = true → isUndefined (getField a "type") = false →
        st.currentReducer st.currentState a = .ok s1 →
        (∀ l2, (env l2).thrown = none) →
        ((dispatchT env (subscribeN st l n) a).invoked).count l
          = st.nextListeners.count l + n)
    ∧ (∀ (st : Store) (u l : Nat),
        st.unsubs[u]? = some ⟨l, true⟩ → l ∈ st.nextListeners → aliasInv st →
        unsubscribeCall st u =
          { st with nextListeners := st.nextListeners.erase l,
                    unsubs := st.unsubs.set u ⟨l, false⟩,
                    aliased := false })
    ∧ (∀ (st : Store) (u : Nat) (c : UnsubState),
        st.unsubs[u]? = some c → c.isSubscribed = false →
        unsubscribeCall st u = st) := by
  refine ⟨?_, ?_, ?_⟩
  · intro env st l n a s1 hinv hflag h1 h2 hr hnt
    obtain ⟨hn, hs, hd, hrd⟩ := subscribeN_fields hinv l n
    have hflag2 : (subscribeN st l n).isDispatching = false := by rw [hd, hflag]
    have hr2 : (subscribeN st l n).currentReducer (subscribeN st l n).currentState a
        = .ok s1 := by rw [hrd, hs]; exact hr
    rw [dispatchT_invoked_noThrow env h1 h2 hflag2 hr2 hnt, hn]
    simp [List.count_append, List.count_replicate]
  · intro st u l hu hl hinv
    obtain ⟨red, cs, cl, nl, al, fl, us⟩ := st
    simp only at hu hl hinv ⊢
    unfold unsubscribeCall ensureCanMutateNextListeners
    cases al with
    | false =>
      simp only [hu]
      simp [unsubscribeRemove_erase l nl hl]
    | true =>
      have hcl : cl = nl := hinv rfl
      subst hcl
      simp only [hu]
      simp [unsubscribeRemove_erase l cl hl]
  · intro st u c hu hc
    unfold unsubscribeCall
    simp [hu, hc]

/-- Closed witness for C3: double subscription of listener 7 on the fresh
container; first and second calls of a concrete unsubscribe closure. -/
theorem c3_subscription_multiplicity_witness :
    ((dispatchT noopEnv (subscribeN baseStore 7 2) actA).invoked).count 7
      = baseStore.nextListeners.count 7 + 2
    ∧ unsubscribeCall midPassStore 1 =
        { midPassStore with
            nextListeners := midPassStore.nextListeners.erase 1,
            unsubs := midPassStore.unsubs.set 1 ⟨1, false⟩,
            aliased := false }
    ∧ unsubscribeCall (unsubscribeCall midPassStore 1) 1
        = unsubscribeCall midPassStore 1 :=
  ⟨c3_subscription_multiplicity.1 noopEnv baseStore 7 2 actA (.numv 0)
      (fun _ => rfl) rfl rfl rfl rfl (fun _ => rfl),
   c3_subscription_multiplicity.2.1 midPassStore 1 1 rfl (by decide)
      (fun h => absurd h (by decide)),
   c3_subscription_multiplicity.2.2 (unsubscribeCall midPassStore 1) 1 ⟨1, false⟩
      rfl rfl⟩

/-- C5.  Guaranteed-release error semantics of `dispatch`: a reducer error
escapes with the dispatch-in-progress flag cleared and the closure
variables (state included) exactly as before the call; a listener error
after a successful reducer call leaves the new state committed, skips the
remaining listeners of the pass, clears the flag and propagates to the
caller. -/
theorem c5_error_release :
    (∀ (env : ListenerEnv) (st : Store) (a : JSValue) (e : Err),
        isPlainObject a = true → isUndefined (getField a "type") = false →
        st.isDispatching = false →
        st.currentReducer st.currentState a = .error e →
        dispatch env st a = (st, .error e))
    ∧ (∀ (env : ListenerEnv) (st : Store) (a s1 : JSValue) (ecode : Nat)
         (before post : List Nat) (thr : Nat),
        isPlainObject a = true → isUndefined (getField a "type") = false →
        st.isDispatching = false →
        st.currentReducer st.currentState a = .ok s1 →
        st.nextListeners = before ++ thr :: post →
        (∀ l ∈ before, (env l).thrown = none) →
        (env thr).thrown = some ecode →
        getState (dispatchT env st a).store = s1
        ∧ (dispatchT env st a).invoked = before ++ [thr]
        ∧ (dispatchT env st a).result = .error (.userErr ecode)
        ∧ (dispatchT env st a).store.isDispatching = false) := by
  constructor
  · intro env st a e h1 h2 hflag hr
    obtain ⟨red, cs, cl, nl, al, fl, us⟩ := st
    simp only at hflag hr
    subst hflag
    simp only [dispatch, dispatchT_reducer_error env red cs cl nl al us h1 h2 hr]
  · intro env st a s1 ecode before post thr h1 h2 hflag hr hsnap hnt hthr
    obtain ⟨red, cs, cl, nl, al, fl, us⟩ := st
    simp only at hflag hr hsnap ⊢
    subst hflag
    subst hsnap
    rw [dispatchT_ok env red cs cl _ al us h1 h2 hr]
    obtain ⟨hi, hres⟩ := runPass_throw_at env ecode thr post before _ hnt hthr
    refine ⟨?_, ?_, ?_, ?_⟩
    · rw [getState]
      exact runPass_currentState env _ _
    · exact hi
    · simp only [hres]
    · exact runPass_isDispatching env _ _

/-- Closed witness for C5: a throwing reducer leaves the container intact;
a throwing second listener commits the state, invokes only listeners up to
the thrower, and propagates its error. -/
theorem c5_error_release_witness :
    dispatch noopEnv wFailStore actA = (wFailStore, .error (.userErr 3))
    ∧ (getState (dispatchT wThrowEnv midPassStore actA).store = .numv 0
        ∧ (dispatchT wThrowEnv midPassStore actA).invoked = [0, 1]
        ∧ (dispatchT wThrowEnv midPassStore actA).result = .error (.userErr 9)
        ∧ (dispatchT wThrowEnv midPassStore actA).store.isDispatching = false) :=
  ⟨c5_error_release.1 noopEnv wFailStore actA (.userErr 3) rfl rfl rfl rfl,
   c5_error_release.2 wThrowEnv midPassStore actA (.numv 0) 9 [0] [] 1
      rfl rfl rfl rfl rfl (by intro l hl; fin_cases hl; rfl) rfl⟩

/-! ### Nested dispatch (reentrancy) -/

/-- A reducer error escapes `dispatch` with the flag cleared and the
closure variables unchanged. -/
theorem dispatch_reducer_error_eq (env : ListenerEnv) {st : Store} {a : JSValue} {e : Err}
    (h1 : isPlainObject a = true) (h2 : isUndefined (getField a "type") = false)
    (hflag : st.isDispatching = false)
    (hr : st.currentReducer st.currentState a = .error e) :
    dispatch env st a = (st, .error e) := by
  obtain ⟨red, cs, cl, nl, al, fl, us⟩ := st
  simp only at hflag hr
  subst hflag
  simp only [dispatch, dispatchT_reducer_error env red cs cl nl al us h1 h2 hr]

/-- C6 counterexample: a reducer that performs the nested dispatch on its
own container and RETHROWS the resulting ReentrancyError.  The outer
dispatch does not complete with an assignment, contrary to the claim: it
propagates the error and the state stays at its pre-call value. -/
theorem c6_counterexample :
    (dispatch noopEnv rethrowStore actA).2 = .error .reentrancy
    ∧ getState (dispatch noopEnv rethrowStore actA).1 = getState rethrowStore
    ∧ ¬ ∃ v, (dispatch noopEnv rethrowStore actA).2 = Except.ok v := by
  refine ⟨rfl, rfl, ?_⟩
  rintro ⟨v, hv⟩
  rw [show (dispatch noopEnv rethrowStore actA).2 = .error .reentrancy from rfl] at hv
  exact Except.noConfusion hv

/-- C6 (amended).  A nested dispatch performed while a reducer invocation
is running fails with ReentrancyError and leaves every closure variable
(the state included) at its pre-call value.  If the reducer catches the
error and returns normally, the outer dispatch completes and assigns the
outer reducer call's result as the new state; if the reducer rethrows it,
the outer dispatch propagates the error and the state stays at its
pre-call value.  The last conjunct shows the concrete catching container
committing its recovery state. -/
theorem c6_nested_dispatch_amended :
    (∀ (env : ListenerEnv) (st : Store) (a : JSValue),
        st.isDispatching = true → isPlainObject a = true →
        isUndefined (getField a "type") = false →
        dispatch env st a = (st, .error .reentrancy))
    ∧ (∀ (env : ListenerEnv) (st : Store) (a s1 : JSValue),
        st.isDispatching = false → isPlainObject a = true →
        isUndefined (getField a "type") = false →
        st.currentReducer st.currentState a = .ok s1 →
        getState (dispatch env st a).1 = s1
        ∧ ((∀ l, (env l).thrown = none) → (dispatch env st a).2 = .ok a))
    ∧ (∀ (env : ListenerEnv) (st : Store) (a : JSValue) (e : Err),
        st.isDispatching = false → isPlainObject a = true →
        isUndefined (getField a "type") = false →
        st.currentReducer st.currentState a = .error e →
        dispatch env st a = (st, .error e))
    ∧ (getState (dispatch noopEnv catchStore actA).1 = .strv "recovered"
        ∧ (dispatch noopEnv catchStore actA).2 = .ok actA) := by
  refine ⟨?_, ?_, ?_, rfl, rfl⟩
  · intro env st a hd h1 h2
    simp [dispatch, dispatchT, h1, h2, hd]
  · intro env st a s1 hflag h1 h2 hr
    refine ⟨(dispatch_fields env h1 h2 hflag hr).1, ?_⟩
    intro hnt
    obtain ⟨red, cs, cl, nl, al, fl, us⟩ := st
    simp only at hflag hr ⊢
    subst hflag
    rw [dispatch, dispatchT_ok env red cs cl nl al us h1 h2 hr]
    have hres := (runPass_invoked_of_noThrow env nl
      ⟨red, s1, nl, nl, true, false, us⟩ (fun l _ => hnt l)).2
    simp [hres]
  · intro env st a e hflag h1 h2 hr
    exact dispatch_reducer_error_eq env h1 h2 hflag hr

/-- Closed witness for the amended C6: the nested attempt on the in-flight
view errors without effect, and a caught nested error lets the outer
dispatch commit. -/
theorem c6_nested_dispatch_amended_witness :
    dispatch noopEnv inFlightView actA = (inFlightView, .error .reentrancy)
    ∧ getState (dispatch noopEnv baseStore actA).1 = .numv 0 :=
  ⟨c6_nested_dispatch_amended.1 noopEnv inFlightView actA rfl rfl rfl,
   (c6_nested_dispatch_amended.2.1 noopEnv baseStore actA (.numv 0)
      rfl rfl rfl rfl).1⟩

/-! ### Scope of the dispatch-in-progress flag -/

theorem passStores_flag (env : ListenerEnv) :
    ∀ (snap : List Nat) (st : Store), st.isDispatching = false →
      ∀ s ∈ passStores env st snap, s.isDispatching = false := by
  intro snap
  induction snap with
  | nil => intro st _ s hs; cases hs
  | cons l rest ih =>
    intro st hflag s hs
    simp only [passStores, runListener] at hs
    cases hs with
    | head => exact hflag
    | tail _ hs2 =>
      cases h : (env l).thrown with
      | some e => rw [h] at hs2; cases hs2
      | none =>
        rw [h] at hs2
        exact ih ((env l).ops.foldl runRegOp st)
          (by rw [foldl_runRegOp_isDispatching, hflag]) s hs2

/-- C7.  The dispatch-in-progress flag is set exactly around the reducer
invocation: it reads true inside the reducer phase, is cleared when the
reducer phase ends (error or not), stays false at every store observed by
a listener during the notification pass, and is false again when dispatch
returns.  Consequently a dispatch initiated while no reducer invocation is
on the stack — in particular from inside a listener — never fails with
ReentrancyError (unless caller code itself rethrows one out of the
reducer). -/
theorem c7_flag_scope :
    (∀ st : Store, (duringReducer st).isDispatching = true)
    ∧ (∀ (st : Store) (a : JSValue), (reducerPhase st a).1.isDispatching = false)
    ∧ (∀ (env : ListenerEnv) (st : Store) (a : JSValue),
        st.isDispatching = false → (dispatch env st a).1.isDispatching = false)
    ∧ (∀ (env : ListenerEnv) (st : Store) (snap : List Nat),
        st.isDispatching = false →
        ∀ s ∈ passStores env st snap, s.isDispatching = false)
    ∧ (∀ (env : ListenerEnv) (st : Store) (a : JSValue),
        st.isDispatching = false → isPlainObject a = true →
        isUndefined (getField a "type") = false →
        st.currentReducer st.currentState a ≠ .error .reentrancy →
        (dispatch env st a).2 ≠ .error .reentrancy) := by
  refine ⟨fun st => rfl, ?_, ?_, fun env st snap => passStores_flag env snap st, ?_⟩
  · intro st a
    unfold reducerPhase duringReducer
    cases h : st.currentReducer st.currentState a <;> simp [h]
  · intro env st a hflag
    by_cases h1 : isPlainObject a = true
    · by_cases h2 : isUndefined (getField a "type") = true
      · rw [dispatch_invalid_noType env st h2]; exact hflag
      · obtain ⟨red, cs, cl, nl, al, fl, us⟩ := st
        simp only at hflag ⊢
        subst hflag
        have h2f : isUndefined (getField a "type") = false := by
          simpa using h2
        cases hres : red cs a with
        | error e =>
          rw [dispatch, dispatchT_reducer_error env red cs cl nl al us h1 h2f hres]
        | ok s1 =>
          rw [dispatch, dispatchT_ok env red cs cl nl al us h1 h2f hres]
          exact runPass_isDispatching env nl _
    · rw [dispatch_invalid_notPlain env st (by simpa using h1)]
      exact hflag
  · intro env st a hflag h1 h2 hne hcontra
    obtain ⟨red, cs, cl, nl, al, fl, us⟩ := st
    simp only at hflag hne ⊢
    subst hflag
    cases hres : red cs a with
    | error e =>
      rw [dispatch, dispatchT_reducer_error env red cs cl nl al us h1 h2 hres] at hcontra
      simp only at hcontra
      cases hcontra
      exact hne hres
    | ok s1 =>
      rw [dispatch, dispatchT_ok env red cs cl nl al us h1 h2 hres] at hcontra
      rcases runPass_result_shape env nl ⟨red, s1, nl, nl, true, false, us⟩ with hok | ⟨c, herr⟩
      · simp [hok] at hcontra
      · simp [herr] at hcontra

/-- Closed witness for C7: concrete observations of the flag and of the
unreachability of the reentrancy branch. -/
theorem c7_flag_scope_witness :
    (duringReducer baseStore).isDispatching = true
    ∧ (reducerPhase baseStore actA).1.isDispatching = false
    ∧ (dispatch noopEnv baseStore actA).1.isDispatching = false
    ∧ midPassStore.isDispatching = false
    ∧ (dispatch noopEnv wFailStore actA).2 ≠ .error .reentrancy :=
  ⟨c7_flag_scope.1 baseStore,
   c7_flag_scope.2.1 baseStore actA,
   c7_flag_scope.2.2.1 noopEnv baseStore actA rfl,
   c7_flag_scope.2.2.2.1 midPassEnv midPassStore [0, 1] rfl midPassStore
      (List.mem_cons_self midPassStore _),
   c7_flag_scope.2.2.2.2 noopEnv wFailStore actA rfl rfl rfl
      (by intro h; simp [wFailStore] at h)⟩

/-- C10.  The container gives the reserved bootstrap type no special
treatment: `{ type: '@@redux/INIT' }` passes the same validation as any
other action, and an external dispatch of it invokes the current reducer,
commits the result, runs a full notification pass over `nextListeners`
and returns the action. -/
theorem c10_init_not_special :
    validAction initAction = true
    ∧ (∀ (env : ListenerEnv) (st : Store) (s1 : JSValue),
        st.isDispatching = false →
        st.currentReducer st.currentState initAction = .ok s1 →
        getState (dispatchT env st initAction).store = s1
        ∧ ((∀ l, (env l).thrown = none) →
            (dispatchT env st initAction).invoked = st.nextListeners
            ∧ (dispatchT env st initAction).result = .ok initAction)) := by
  refine ⟨rfl, ?_⟩
  intro env st s1 hflag hr
  obtain ⟨red, cs, cl, nl, al, fl, us⟩ := st
  simp only at hflag hr ⊢
  subst hflag
  rw [dispatchT_ok env red cs cl nl al us
    (show isPlainObject initAction = true from rfl)
    (show isUndefined (getField initAction "type") = false from rfl) hr]
  refine ⟨runPass_currentState env nl _, ?_⟩
  intro hnt
  obtain ⟨hi, hres⟩ := runPass_invoked_of_noThrow env nl
    ⟨red, s1, nl, nl, true, false, us⟩ (fun l _ => hnt l)
  exact ⟨hi, by simp [hres]⟩

/-- Closed witness for C10: an external dispatch of the bootstrap action
against the two-listener container behaves exactly like a normal action. -/
theorem c10_init_not_special_witness :
    getState (dispatchT noopEnv midPassStore initAction).store = .numv 0
    ∧ (dispatchT noopEnv midPassStore initAction).invoked = midPassStore.nextListeners
    ∧ (dispatchT noopEnv midPassStore initAction).result = .ok initAction := by
  obtain ⟨h1, h2⟩ := c10_init_not_special.2 noopEnv midPassStore (.numv 0) rfl rfl
  obtain ⟨h3, h4⟩ := h2 (fun _ => rfl)
  exact ⟨h1, h3, h4⟩

/-- The `reduce` step of `compose` is associative over its accumulator. -/
theorem compose_foldl_assoc :
    ∀ (l : List VFn) (a b : VFn),
      l.foldl (fun a b => fun args => a [b args]) (fun args => a [b args])
        = fun args => a [(l.foldl (fun a b => fun args => a [b args]) b) args] := by
  intro l
  induction l with
  | nil => intro a b; rfl
  | cons c t ih =>
    intro a b
    simp only [List.foldl_cons]
    exact ih a (fun args => b [c args])

/-- C9.  `compose()` is the identity on its first argument; `compose(f)`
is `f` itself; `compose(f, g, h)(x, y) = f(g(h(x, y)))`; and in general,
for two or more functions, `compose` is the right fold in which only the
rightmost function receives the original argument list. -/
theorem c9_compose :
    (∀ (x : JSValue) (rest : List JSValue), compose [] (x :: rest) = x)
    ∧ (∀ f : VFn, compose [f] = f)
    ∧ (∀ (f g h : VFn) (x y : JSValue), compose [f, g, h] [x, y] = f [g [h [x, y]]])
    ∧ (∀ (f g : VFn) (rest : List VFn) (args : List JSValue),
        compose (f :: g :: rest) args = f [compose (g :: rest) args]) := by
  refine ⟨fun x rest => rfl, fun f => rfl, fun f g h x y => rfl, ?_⟩
  intro f g rest args
  cases rest with
  | nil => rfl
  | cons c t =>
    exact congrFun (compose_foldl_assoc t f (fun args2 => g [c args2])) args

/-- The `Object.keys` loop of `bindActionCreators` is the filter-map that
binds callable entries and drops the rest. -/
theorem bindLoop_filterMap {D : Type} (d : JSValue → D) :
    ∀ (m : List (String × CreatorVal)) (acc : List (String × (List JSValue → D))),
      m.foldl (fun acc kv =>
          match kv.2 with
          | .fnv f => acc ++ [(kv.1, bindActionCreator f d)]
          | .datav _ => acc) acc
        = acc ++ m.filterMap (fun kv =>
            match kv.2 with
            | .fnv f => some (kv.1, bindActionCreator f d)
            | .datav _ => none) := by
  intro m
  induction m with
  | nil => intro acc; simp
  | cons kv rest ih =>
    intro acc
    cases kv with
    | mk k v =>
      cases v with
      | fnv f => simp [List.foldl_cons, List.filterMap_cons, ih]
      | datav w => simp [List.foldl_cons, List.filterMap_cons, ih]

/-- C8.  A callable is wrapped so that each invocation performs exactly
one dispatch of the created action and returns the dispatch result (the
instrumented conjunct logs the dispatched actions); `null` and
non-object-like arguments fail with `ConfigurationError`; a mapping is
rebuilt with callable values bound and non-callable values silently
dropped, preserving the key order of the callable entries. -/
theorem c8_bind_action_creators :
    (∀ (D : Type) (f : List JSValue → JSValue) (d : JSValue → D) (args : List JSValue),
        bindActionCreators (.funcArg f) d = .ok (.funcRes (bindActionCreator f d))
        ∧ bindActionCreator f d args = d (f args))
    ∧ (∀ (f : List JSValue → JSValue) (args : List JSValue),
        bindActionCreator f (fun v => (v, [v])) args = (f args, [f args]))
    ∧ (∀ (D : Type) (d : JSValue → D),
        bindActionCreators .nullArg d = .error .configuration
        ∧ ∀ v, bindActionCreators (.primArg v) d = .error .configuration)
    ∧ (∀ (D : Type) (m : List (String × CreatorVal)) (d : JSValue → D),
        bindActionCreators (.objArg m) d
          = .ok (.objRes (m.filterMap (fun kv =>
              match kv.2 with
              | .fnv f => some (kv.1, bindActionCreator f d)
              | .datav _ => none))))
    ∧ (∀ (D : Type) (m : List (String × CreatorVal)) (d : JSValue → D),
        (m.filterMap (fun kv =>
            match kv.2 with
            | .fnv f => some (kv.1, bindActionCreator f d)
            | .datav _ => none)).map Prod.fst
          = (m.filter (fun kv => kv.2.isCallable)).map Prod.fst) := by
  refine ⟨fun D f d args => ⟨rfl, rfl⟩, fun f args => rfl,
          fun D d => ⟨rfl, fun v => rfl⟩, ?_, ?_⟩
  · intro D m d
    rw [bindActionCreators, bindLoop_filterMap d m []]
    rfl
  · intro D m d
    induction m with
    | nil => rfl
    | cons kv rest ih =>
      cases kv with
      | mk k v =>
        cases v with
        | fnv f => simp [List.filterMap_cons, List.filter_cons, CreatorVal.isCallable, ih]
        | datav w => simp [List.filterMap_cons, List.filter_cons, CreatorVal.isCallable, ih]

end ReduxSpec
